import Mathlib

/-!
Shallow embedding of the Predictify Hybrid prediction-market contract
(`contracts/predictify-hybrid/src`), covering the fee engine (`fees.rs`),
the winnings-claim and manual-resolution entry points (`lib.rs`), the
market data model and validation (`types.rs`), and the reentrancy guard
(`reentrancy.rs`), together with theorems checking the specification's
claims about them.

Conventions of the embedding:
- Soroban `Address` is modelled as `Nat`, `String` as Lean `String`,
  `Vec` as `List`, and `Map` as an association list with
  replace-or-append `set` semantics (`mapSet` / `mapGet`).
- Rust `i128` is modelled as `Int`.  All quantities the claims touch are
  non-negative, where every integer-division convention agrees with
  Rust's truncating division; theorems carry the non-negativity
  hypotheses explicitly.
- Rust `Result<T, Error>` is modelled as the `Result` inductive below;
  a Soroban panic (transaction abort) is modelled through the same
  error channel.
- Persistent contract storage is modelled as an explicit `Storage`
  record threaded through the operations; a token transfer is an
  opaque `Result Unit` parameter, as the spec treats the asset-transfer
  collaborator as external.
-/

namespace Predictify

/-- Contract error codes, from `errors.rs`. -/
inductive Error where
  | Unauthorized
  | MarketClosed
  | MarketNotFound
  | InsufficientStake
  | InvalidOutcome
  | AlreadyClaimed
  | MarketAlreadyResolved
  | NothingToClaim
  | AlreadyVoted
  | AlreadyDisputed
  | OracleUnavailable
  | ReentrancyAttack
  | InvalidReentrancyState
  | InconsistentReentrancyState
  | InvalidCallState
  | CallStackOverflow
  | InvalidInput
  | InvalidConfig
  | MarketNotResolved
  | InvalidThreshold
  | AdminNotSet
  | InvalidOracleConfig
  | InvalidQuestion
  | InvalidState
  | OracleDataStale
  | OraclePriceOutOfRange
  | InvalidOracleFeed
  | ConfigurationNotFound
  | NoFeesToCollect
  | FeeAlreadyCollected
  | InternalError
deriving DecidableEq, Repr

/-- Rust `Result<α, Error>`. -/
inductive Result (α : Type) where
  | ok : α → Result α
  | err : Error → Result α
deriving DecidableEq, Repr

/-- Addresses are opaque identities; modelled as `Nat`. -/
abbrev Address := Nat

/-- Soroban `Map` lookup (`map.get(key)`). -/
def mapGet {α : Type} (m : List (Address × α)) (k : Address) : Option α :=
  match m with
  | [] => none
  | (k', v) :: rest => if k' = k then some v else mapGet rest k

/-- Soroban `Map` update (`map.set(key, value)`): replaces the binding
for `k` if present, otherwise appends it. -/
def mapSet {α : Type} (m : List (Address × α)) (k : Address) (v : α) :
    List (Address × α) :=
  match m with
  | [] => [(k, v)]
  | (k', v') :: rest =>
    if k' = k then (k, v) :: rest else (k', v') :: mapSet rest k v

namespace config

/-- Modelled from the spec: `config.rs` is referenced by `fees.rs` but is
not among the provided sources.  The value 2 (percent) is pinned by the
repository's own tests (`test.rs`: `assert_eq!(crate::config::DEFAULT_PLATFORM_FEE_PERCENTAGE, 2)`)
and by the spec's fee scenarios. -/
def DEFAULT_PLATFORM_FEE_PERCENTAGE : Int := 2

/-- Modelled from the spec: pinned by `test.rs`
(`assert_eq!(crate::config::MIN_FEE_AMOUNT, 1_000_000)`), i.e. 0.1 XLM. -/
def MIN_FEE_AMOUNT : Int := 1000000

/-- Modelled from the spec: pinned by `test.rs`
(`assert_eq!(crate::config::FEE_COLLECTION_THRESHOLD, 100_000_000)`), i.e. 10 XLM. -/
def FEE_COLLECTION_THRESHOLD : Int := 100000000

/-- Modelled from the spec: `fees.rs` documents this constant as
"Maximum fee amount (100 XLM)", i.e. 1_000_000_000 stroops. -/
def MAX_FEE_AMOUNT : Int := 1000000000

end config

/-- Platform fee percentage, `fees.rs` line 19. -/
def PLATFORM_FEE_PERCENTAGE : Int := config.DEFAULT_PLATFORM_FEE_PERCENTAGE

/-- Minimum fee amount, `fees.rs` line 25. -/
def MIN_FEE_AMOUNT : Int := config.MIN_FEE_AMOUNT

/-- Maximum fee amount, `fees.rs` line 28. -/
def MAX_FEE_AMOUNT : Int := config.MAX_FEE_AMOUNT

/-- Fee collection threshold, `fees.rs` line 31. -/
def FEE_COLLECTION_THRESHOLD : Int := config.FEE_COLLECTION_THRESHOLD

/-- Supported oracle providers, `types.rs`. -/
inductive OracleProvider where
  | Reflector
  | Pyth
  | BandProtocol
  | DIA
deriving DecidableEq, Repr

namespace OracleProvider

/-- `OracleProvider::is_supported`, `types.rs`. -/
def is_supported : OracleProvider → Bool
  | .Reflector => true
  | .Pyth => true
  | .BandProtocol => false
  | .DIA => false

end OracleProvider

/-- Oracle configuration, `types.rs`. -/
structure OracleConfig where
  provider : OracleProvider
  feed_id : String
  threshold : Int
  comparison : String
deriving DecidableEq, Repr

namespace OracleConfig

/-- `OracleConfig::validate`, `types.rs` lines 342-372. -/
def validate (c : OracleConfig) : Result Unit :=
  if c.threshold ≤ 0 then .err .InvalidThreshold
  else if c.comparison ≠ "gt" ∧ c.comparison ≠ "lt" ∧ c.comparison ≠ "eq" then
    .err .InvalidInput
  else if c.feed_id.isEmpty then .err .InvalidOracleFeed
  else if ¬ c.provider.is_supported then .err .InvalidConfig
  else .ok ()

end OracleConfig

/-- Market lifecycle states, `types.rs`. -/
inductive MarketState where
  | Active
  | Ended
  | Disputed
  | Resolved
  | Closed
  | Cancelled
deriving DecidableEq, Repr

/-- Market extension record, `types.rs`. -/
structure MarketExtension where
  timestamp : Nat
  additional_days : Nat
  admin : Address
  reason : String
  fee_paid : Int
deriving DecidableEq, Repr

/-- The central `Market` aggregate, `types.rs`. -/
structure Market where
  admin : Address
  question : String
  outcomes : List String
  end_time : Nat
  oracle_config : OracleConfig
  oracle_result : Option String
  votes : List (Address × String)
  stakes : List (Address × Int)
  claimed : List (Address × Bool)
  total_staked : Int
  dispute_stakes : List (Address × Int)
  winning_outcome : Option String
  fee_collected : Bool
  state : MarketState
  total_extension_days : Nat
  max_extension_days : Nat
  extension_history : List MarketExtension
deriving DecidableEq, Repr

namespace Market

/-- `Market::new`, `types.rs` lines 665-694. -/
def new (admin : Address) (question : String) (outcomes : List String)
    (end_time : Nat) (oracle_config : OracleConfig) (state : MarketState) :
    Market :=
  { admin := admin
    question := question
    outcomes := outcomes
    end_time := end_time
    oracle_config := oracle_config
    oracle_result := none
    votes := []
    stakes := []
    claimed := []
    total_staked := 0
    dispute_stakes := []
    winning_outcome := none
    fee_collected := false
    state := state
    total_extension_days := 0
    max_extension_days := 30
    extension_history := [] }

/-- `Market::add_vote`, `types.rs` lines 721-725. -/
def add_vote (m : Market) (user : Address) (outcome : String) (stake : Int) :
    Market :=
  { m with
    votes := mapSet m.votes user outcome
    stakes := mapSet m.stakes user stake
    total_staked := m.total_staked + stake }

end Market

/-- Sum of the entries of a market's `stakes` map (the spec's `Σ stakes[*]`). -/
def stakesSum (m : Market) : Int :=
  (m.stakes.map (fun p => p.2)).sum

/-- Market creation parameters, `types.rs`. -/
structure MarketCreationParams where
  admin : Address
  question : String
  outcomes : List String
  duration_days : Nat
  oracle_config : OracleConfig
  creation_fee : Int
deriving DecidableEq, Repr

namespace MarketCreationParams

/-- `MarketCreationParams::validate`, `types.rs` lines 1568-1588. -/
def validate (p : MarketCreationParams) : Result Unit :=
  if p.question.isEmpty then .err .InvalidInput
  else if p.outcomes.length < 2 then .err .InvalidOutcome
  else if p.duration_days = 0 ∨ p.duration_days > 365 then .err .InvalidInput
  else
    match p.oracle_config.validate with
    | .err e => .err e
    | .ok _ => .ok ()

end MarketCreationParams

/-- Fee breakdown record, `fees.rs`. -/
structure FeeBreakdown where
  total_staked : Int
  fee_percentage : Int
  fee_amount : Int
  platform_fee : Int
  user_payout_amount : Int
deriving DecidableEq, Repr

namespace FeeCalculator

/-- `FeeCalculator::calculate_platform_fee`, `fees.rs` lines 1893-1905. -/
def calculate_platform_fee (market : Market) : Result Int :=
  if market.total_staked = 0 then .err .NoFeesToCollect
  else
    let fee_amount := (market.total_staked * PLATFORM_FEE_PERCENTAGE) / 100
    if fee_amount < MIN_FEE_AMOUNT then .err .InsufficientStake
    else .ok fee_amount

/-- `FeeCalculator::calculate_user_payout_after_fees`, `fees.rs`
lines 1908-1921. -/
def calculate_user_payout_after_fees (user_stake winning_total total_pool : Int) :
    Result Int :=
  if winning_total = 0 then .err .NothingToClaim
  else
    let base_payout := (user_stake * total_pool) / winning_total
    let payout := (base_payout * (100 - PLATFORM_FEE_PERCENTAGE)) / 100
    .ok payout

/-- The value returned by `calculate_user_payout_after_fees` on its
non-error branch (`winning_total ≠ 0`). -/
def payoutAfterFeesVal (user_stake winning_total total_pool : Int) : Int :=
  ((user_stake * total_pool) / winning_total * (100 - PLATFORM_FEE_PERCENTAGE)) / 100

/-- `FeeCalculator::calculate_fee_breakdown`, `fees.rs` lines 1924-1938. -/
def calculate_fee_breakdown (market : Market) : Result FeeBreakdown :=
  match calculate_platform_fee market with
  | .err e => .err e
  | .ok fee_amount =>
    .ok { total_staked := market.total_staked
          fee_percentage := PLATFORM_FEE_PERCENTAGE
          fee_amount := fee_amount
          platform_fee := fee_amount
          user_payout_amount := market.total_staked - fee_amount }

/-- `FeeCalculator::calculate_dynamic_fee`, `fees.rs` lines 1941-1961. -/
def calculate_dynamic_fee (market : Market) : Result Int :=
  match calculate_platform_fee market with
  | .err e => .err e
  | .ok base_fee =>
    let size_multiplier : Int :=
      if market.total_staked > 1000000000 then 80
      else if market.total_staked > 100000000 then 90
      else 100
    let adjusted_fee := (base_fee * size_multiplier) / 100
    if adjusted_fee < MIN_FEE_AMOUNT then .ok MIN_FEE_AMOUNT
    else .ok adjusted_fee

end FeeCalculator

/-- Contract-wide persistent storage relevant to the claims: the
`"Admin"` singleton key and the market record under one market id.
Other keys (fee history, token id, ...) do not affect the claims. -/
structure Storage where
  admin : Option Address
  market : Option Market
deriving DecidableEq, Repr

namespace MarketStateManager

/-- Modelled from the spec: `MarketStateManager::get_market` lives in
`markets.rs`, which is not among the provided sources.  Per spec §4.1,
`get` fails with `MarketNotFound` if the market is absent. -/
def get_market (st : Storage) : Result Market :=
  match st.market with
  | none => .err .MarketNotFound
  | some m => .ok m

/-- Modelled from the spec: `MarketStateManager::mark_fees_collected`
lives in `markets.rs`, not among the provided sources.  Per spec §4.2,
on success fee collection "marks `fee_collected = true`". -/
def mark_fees_collected (market : Market) : Market :=
  { market with fee_collected := true }

/-- Modelled from the spec: `MarketStateManager::update_market` lives in
`markets.rs`, not among the provided sources.  Per spec §4.1, every
write replaces the entire record (`put(market_id, Market)`). -/
def update_market (st : Storage) (market : Market) : Storage :=
  { st with market := some market }

/-- Modelled from the spec: `MarketStateManager::remove_market` lives in
`markets.rs`, not among the provided sources.  Per spec §4.1, `remove`
deletes the record from the store. -/
def remove_market (st : Storage) : Storage :=
  { st with market := none }

end MarketStateManager

namespace FeeValidator

/-- `FeeValidator::validate_admin_permissions`, `fees.rs`: compares the
caller with the stored `"Admin"` singleton. -/
def validate_admin_permissions (storedAdmin : Option Address) (admin : Address) :
    Result Unit :=
  match storedAdmin with
  | some stored => if admin ≠ stored then .err .Unauthorized else .ok ()
  | none => .err .Unauthorized

/-- `FeeValidator::validate_market_for_fee_collection`, `fees.rs`
lines 2179-2196. -/
def validate_market_for_fee_collection (market : Market) : Result Unit :=
  if market.winning_outcome = none then .err .MarketNotResolved
  else if market.fee_collected then .err .FeeAlreadyCollected
  else if market.total_staked < FEE_COLLECTION_THRESHOLD then .err .InsufficientStake
  else .ok ()

/-- `FeeValidator::validate_fee_amount`, `fees.rs`. -/
def validate_fee_amount (fee_amount : Int) : Result Unit :=
  if fee_amount < MIN_FEE_AMOUNT then .err .InsufficientStake
  else if fee_amount > MAX_FEE_AMOUNT then .err .InvalidInput
  else .ok ()

end FeeValidator

namespace FeeManager

/-- `FeeManager::collect_fees`, `fees.rs` lines 1027-1055.
`admin.require_auth()` is host-provided authentication of the `admin`
argument and has no storage effect.  The token transfer
(`FeeUtils::transfer_fees_to_admin`) crosses into the external asset
collaborator; its outcome is the `transfer` parameter.
`FeeTracker::record_fee_collection` appends to an audit log that no
claim observes, so it is not carried in `Storage`. -/
def collect_fees (st : Storage) (transfer : Result Unit) (admin : Address) :
    Result (Int × Storage) :=
  match FeeValidator.validate_admin_permissions st.admin admin with
  | .err e => .err e
  | .ok _ =>
  match MarketStateManager.get_market st with
  | .err e => .err e
  | .ok market =>
  match FeeValidator.validate_market_for_fee_collection market with
  | .err e => .err e
  | .ok _ =>
  match FeeCalculator.calculate_platform_fee market with
  | .err e => .err e
  | .ok fee_amount =>
  match FeeValidator.validate_fee_amount fee_amount with
  | .err e => .err e
  | .ok _ =>
  match transfer with
  | .err e => .err e
  | .ok _ =>
    let market' := MarketStateManager.mark_fees_collected market
    .ok (fee_amount, MarketStateManager.update_market st market')

end FeeManager

/-- `PERCENTAGE_DENOMINATOR`, `lib.rs` line 61. -/
def PERCENTAGE_DENOMINATOR : Int := 100

/-- `FEE_PERCENTAGE`, `lib.rs` line 62 (2% platform fee). -/
def FEE_PERCENTAGE : Int := 2

namespace PredictifyHybrid

/-- The payout computed inside `PredictifyHybrid::process_winnings_claim`,
`lib.rs` lines 413-415: the fee reduction is applied to `user_stake`
first, and the result is multiplied by the pool and divided by the
winning total. -/
def claimPayout (user_stake total_pool winning_total : Int) : Int :=
  let user_share :=
    (user_stake * (PERCENTAGE_DENOMINATOR - FEE_PERCENTAGE)) / PERCENTAGE_DENOMINATOR
  (user_share * total_pool) / winning_total

/-- The `winning_total` loop of `process_winnings_claim`, `lib.rs`
lines 405-410: sums the stakes of all voters whose vote equals the
winning outcome. -/
def winningTotal (market : Market) (winning_outcome : String) : Int :=
  market.votes.foldl
    (fun acc p =>
      if p.2 = winning_outcome then acc + (mapGet market.stakes p.1).getD 0
      else acc)
    0

/-- `PredictifyHybrid::process_winnings_claim`, `lib.rs` lines 380-427.
Takes the stored market record (storage under `market_id`) and returns
the payout together with the updated record written back to storage. -/
def process_winnings_claim (stored : Option Market) (user : Address) :
    Result (Int × Market) :=
  match stored with
  | none => .err .MarketNotFound
  | some market =>
    match market.winning_outcome with
    | none => .err .MarketNotResolved
    | some winning_outcome =>
      match mapGet market.votes user with
      | none => .err .NothingToClaim
      | some user_outcome =>
        let user_stake := (mapGet market.stakes user).getD 0
        if user_outcome = winning_outcome then
          let winning_total := winningTotal market winning_outcome
          if winning_total > 0 then
            let payout := claimPayout user_stake market.total_staked winning_total
            let market' := { market with claimed := mapSet market.claimed user true }
            .ok (payout, market')
          else .err .NothingToClaim
        else .err .NothingToClaim

/-- `PredictifyHybrid::get_market`, `lib.rs` lines 535-537: a direct
storage read returning `Option<Market>`. -/
def get_market (st : Storage) : Option Market :=
  st.market

/-- `errors::helpers::require_admin`, `errors.rs` lines 138-147: panics
(transaction abort, modelled through the error channel) with
`Unauthorized` when the caller is not the given admin; the `Ok(())`
return value is all a caller can discard — the panic fires regardless. -/
def require_admin (caller admin : Address) : Result Unit :=
  if caller ≠ admin then .err .Unauthorized else .ok ()

/-- `PredictifyHybrid::resolve_market_manual`, `lib.rs` lines 597-618.
`admin.require_auth()` is host-provided authentication of the `admin`
argument.  The source reads the stored admin with
`.expect("Admin not set")` (a panic when the key is absent, modelled as
the `AdminNotSet` abort), then calls `errors::helpers::require_admin`:
`let _ = ...` discards only its `Ok(())` value — the `Unauthorized`
panic inside it still aborts the call for a non-admin caller.  On the
authorized path it removes the market from storage.  The
`_winning_outcome` argument is unused in the source. -/
def resolve_market_manual (st : Storage) (admin : Address)
    (winning_outcome : String) : Result Storage :=
  match st.admin with
  | none => .err .AdminNotSet
  | some stored_admin =>
    match require_admin admin stored_admin with
    | .err e => .err e
    | .ok _ =>
      .ok (MarketStateManager.remove_market st)

end PredictifyHybrid

/-- `REENTRANCY_NOT_ENTERED`, `reentrancy.rs`. -/
def REENTRANCY_NOT_ENTERED : Nat := 1

/-- `REENTRANCY_ENTERED`, `reentrancy.rs`. -/
def REENTRANCY_ENTERED : Nat := 2

/-- The instance-storage cells used by the reentrancy guard
(`REENT_ST` and `CALL_CNT` keys), with the `unwrap_or` defaults already
applied (`NOT_ENTERED` and `0`). -/
structure ReentrancyStorage where
  status : Nat
  callCount : Nat
deriving DecidableEq, Repr

/-- The in-memory `ReentrancyGuard` value (its `is_active` flag; the
`call_id` field is dead code in the source). -/
structure ReentrancyGuard where
  is_active : Bool
deriving DecidableEq, Repr

namespace ReentrancyGuard

/-- `ReentrancyGuard::new`, `reentrancy.rs`: fails `ReentrancyAttack`
if the global status is already `ENTERED`. -/
def new (s : ReentrancyStorage) : Result ReentrancyGuard :=
  if s.status = REENTRANCY_ENTERED then .err .ReentrancyAttack
  else .ok { is_active := false }

/-- `ReentrancyGuard::before_external_call`, `reentrancy.rs` lines 40-56:
fails `ReentrancyAttack` if the status is `ENTERED`, otherwise sets the
status to `ENTERED`, increments the call count and activates the guard. -/
def before_external_call (g : ReentrancyGuard) (s : ReentrancyStorage) :
    Result (ReentrancyGuard × ReentrancyStorage) :=
  if s.status = REENTRANCY_ENTERED then .err .ReentrancyAttack
  else
    .ok ({ g with is_active := true },
         { status := REENTRANCY_ENTERED, callCount := s.callCount + 1 })

/-- `ReentrancyGuard::check_reentrancy_state`, `reentrancy.rs`. -/
def check_reentrancy_state (s : ReentrancyStorage) : Result Unit :=
  if s.status ≠ REENTRANCY_ENTERED then .err .InconsistentReentrancyState
  else if s.callCount > 10 then .err .CallStackOverflow
  else .ok ()

/-- `ReentrancyGuard::decrement_call_count`, `reentrancy.rs`: leaves the
count unchanged when it is already 0. -/
def decrement_call_count (s : ReentrancyStorage) : ReentrancyStorage :=
  if s.callCount > 0 then { s with callCount := s.callCount - 1 } else s

/-- `ReentrancyGuard::reset_call_state`, `reentrancy.rs`: resets the
count to 0 and the status to `NOT_ENTERED`. -/
def reset_call_state (_s : ReentrancyStorage) : ReentrancyStorage :=
  { status := REENTRANCY_NOT_ENTERED, callCount := 0 }

/-- `ReentrancyGuard::after_external_call`, `reentrancy.rs` lines 58-81:
fails `InvalidReentrancyState` if this guard was never entered; checks
state consistency; on success decrements the counter, on failure resets
the call state; finally sets the status back to `NOT_ENTERED`. -/
def after_external_call (g : ReentrancyGuard) (success : Bool)
    (s : ReentrancyStorage) : Result (ReentrancyGuard × ReentrancyStorage) :=
  if !g.is_active then .err .InvalidReentrancyState
  else
    match check_reentrancy_state s with
    | .err e => .err e
    | .ok _ =>
      let s1 := if success then decrement_call_count s else reset_call_state s
      .ok ({ g with is_active := false },
           { s1 with status := REENTRANCY_NOT_ENTERED })

end ReentrancyGuard

/-- `protect_external_call`, `reentrancy.rs` lines 212-230: creates a
guard, enters it, runs the operation (modelled by its outcome
`operation`, which crosses to the external collaborator), and leaves
the guard with the operation's success flag.  An error from
`after_external_call` takes precedence (the `?` operator). -/
def protect_external_call {α : Type} (s : ReentrancyStorage)
    (operation : Result α) : Result (α × ReentrancyStorage) :=
  match ReentrancyGuard.new s with
  | .err e => .err e
  | .ok guard =>
    match guard.before_external_call s with
    | .err e => .err e
    | .ok (guard1, s1) =>
      let success := match operation with | .ok _ => true | .err _ => false
      match guard1.after_external_call success s1 with
      | .err e => .err e
      | .ok (_, s2) =>
        match operation with
        | .ok v => .ok (v, s2)
        | .err e => .err e

/-- `validate_no_reentrancy`, `reentrancy.rs`. -/
def validate_no_reentrancy (s : ReentrancyStorage) : Result Unit :=
  if s.status = REENTRANCY_ENTERED then .err .ReentrancyAttack else .ok ()

/-! ### Helper lemmas -/

theorem calculate_platform_fee_ok_iff (m : Market) (f : Int) :
    FeeCalculator.calculate_platform_fee m = .ok f ↔
      m.total_staked ≠ 0 ∧
      MIN_FEE_AMOUNT ≤ m.total_staked * PLATFORM_FEE_PERCENTAGE / 100 ∧
      f = m.total_staked * PLATFORM_FEE_PERCENTAGE / 100 := by
  unfold FeeCalculator.calculate_platform_fee
  dsimp only
  split_ifs with h1 h2
  · simp [h1]
  · simp only [not_lt] at *
    simp [h1]
    omega
  · simp only [not_lt] at h2
    constructor
    · intro h
      simp only [Result.ok.injEq] at h
      exact ⟨h1, h2, h.symm⟩
    · rintro ⟨-, -, rfl⟩
      rfl

theorem validate_market_ok_iff (m : Market) :
    FeeValidator.validate_market_for_fee_collection m = .ok () ↔
      m.winning_outcome ≠ none ∧ m.fee_collected = false ∧
      FEE_COLLECTION_THRESHOLD ≤ m.total_staked := by
  unfold FeeValidator.validate_market_for_fee_collection
  split_ifs with h1 h2 h3 <;> simp_all

/-! ### Claim theorems -/

/-- Claim C5: `calculate_platform_fee` fails `NoFeesToCollect` exactly
when `total_staked == 0`; otherwise it computes
`fee = total_staked * PLATFORM_FEE_PERCENTAGE / 100` (truncating) and
fails `InsufficientStake` exactly when that fee is below
`MIN_FEE_AMOUNT`; and `calculate_fee_breakdown` returns a breakdown
whose `fee_amount` and `platform_fee` equal that fee and whose
`user_payout_amount` is `total_staked - fee_amount`. -/
theorem platform_fee_and_breakdown_correct (m : Market) :
    (FeeCalculator.calculate_platform_fee m = .err .NoFeesToCollect ↔
      m.total_staked = 0) ∧
    (m.total_staked ≠ 0 →
      (FeeCalculator.calculate_platform_fee m = .err .InsufficientStake ↔
        m.total_staked * PLATFORM_FEE_PERCENTAGE / 100 < MIN_FEE_AMOUNT)) ∧
    (m.total_staked ≠ 0 →
      ¬ m.total_staked * PLATFORM_FEE_PERCENTAGE / 100 < MIN_FEE_AMOUNT →
      FeeCalculator.calculate_platform_fee m =
        .ok (m.total_staked * PLATFORM_FEE_PERCENTAGE / 100)) ∧
    (∀ f, FeeCalculator.calculate_platform_fee m = .ok f →
      FeeCalculator.calculate_fee_breakdown m =
        .ok { total_staked := m.total_staked
              fee_percentage := PLATFORM_FEE_PERCENTAGE
              fee_amount := f
              platform_fee := f
              user_payout_amount := m.total_staked - f }) := by
  refine ⟨?_, ?_, ?_, ?_⟩
  · unfold FeeCalculator.calculate_platform_fee
    dsimp only
    split_ifs <;> simp_all
  · intro h0
    unfold FeeCalculator.calculate_platform_fee
    dsimp only
    split_ifs <;> simp_all
  · intro h0 hmin
    unfold FeeCalculator.calculate_platform_fee
    dsimp only
    split_ifs <;> simp_all
  · intro f hf
    unfold FeeCalculator.calculate_fee_breakdown
    rw [hf]

/-- Claim C5, witness: the spec's fee scenario — a market with
`total_staked = 1_000_000_000` yields fee `20_000_000` and
`user_payout_amount = 980_000_000`. -/
theorem platform_fee_and_breakdown_correct_witness :
    FeeCalculator.calculate_fee_breakdown
        { Market.new 0 "q" ["yes", "no"] 100
            { provider := .Reflector, feed_id := "BTC/USD", threshold := 1,
              comparison := "gt" } .Active
          with total_staked := 1000000000 } =
      .ok { total_staked := 1000000000, fee_percentage := 2,
            fee_amount := 20000000, platform_fee := 20000000,
            user_payout_amount := 980000000 } :=
  (platform_fee_and_breakdown_correct _).2.2.2 20000000 (by decide)

/-- Claim C7, counterexample: at `total_staked = 1_000_000_000` — i.e.
exactly at the large-market cutoff used by `calculate_dynamic_fee` —
the code returns 90% of the base fee (18_000_000), not the 80%
(16_000_000) that the claim's "at or above the large-market threshold"
reading requires, because the source compares with strict `>`. -/
theorem dynamic_fee_at_threshold_counterexample :
    FeeCalculator.calculate_platform_fee
        { Market.new 0 "q" ["yes", "no"] 100
            { provider := .Reflector, feed_id := "BTC/USD", threshold := 1,
              comparison := "gt" } .Active
          with total_staked := 1000000000 } = .ok 20000000 ∧
    FeeCalculator.calculate_dynamic_fee
        { Market.new 0 "q" ["yes", "no"] 100
            { provider := .Reflector, feed_id := "BTC/USD", threshold := 1,
              comparison := "gt" } .Active
          with total_staked := 1000000000 } = .ok 18000000 ∧
    (1000000000 : Int) ≥ 1000000000 ∧
    (18000000 : Int) ≠ 20000000 * 80 / 100 := by
  decide

/-- Claim C7 (amended): for every market whose base platform fee is
defined, `calculate_dynamic_fee` returns 80% of the base fee when
`total_staked` is STRICTLY ABOVE the large-market cutoff
(1_000_000_000), 90% when strictly above the medium-market cutoff
(100_000_000), and 100% otherwise, floor-clamped so the result is never
below `MIN_FEE_AMOUNT`. -/
theorem dynamic_fee_tiers (m : Market) (base : Int)
    (hbase : FeeCalculator.calculate_platform_fee m = .ok base) :
    (m.total_staked > 1000000000 →
      FeeCalculator.calculate_dynamic_fee m =
        .ok (max MIN_FEE_AMOUNT (base * 80 / 100))) ∧
    (¬ m.total_staked > 1000000000 → m.total_staked > 100000000 →
      FeeCalculator.calculate_dynamic_fee m =
        .ok (max MIN_FEE_AMOUNT (base * 90 / 100))) ∧
    (¬ m.total_staked > 1000000000 → ¬ m.total_staked > 100000000 →
      FeeCalculator.calculate_dynamic_fee m =
        .ok (max MIN_FEE_AMOUNT (base * 100 / 100))) ∧
    (∀ f, FeeCalculator.calculate_dynamic_fee m = .ok f →
      MIN_FEE_AMOUNT ≤ f) := by
  unfold FeeCalculator.calculate_dynamic_fee
  rw [hbase]
  dsimp only
  refine ⟨?_, ?_, ?_, ?_⟩
  · intro h1
    rw [if_pos h1]
    split_ifs with hc <;> simp <;> omega
  · intro h1 h2
    rw [if_neg h1, if_pos h2]
    split_ifs with hc <;> simp <;> omega
  · intro h1 h2
    rw [if_neg h1, if_neg h2]
    split_ifs with hc <;> simp <;> omega
  · intro f
    split_ifs with h1 h2 h3 h4 h5 <;>
      · intro h
        simp only [Result.ok.injEq] at h
        omega

/-- Claim C7, witness: a market with `total_staked = 2_000_000_000`
(strictly above the large cutoff) gets 80% of the base fee of
40_000_000, i.e. 32_000_000. -/
theorem dynamic_fee_tiers_witness :
    FeeCalculator.calculate_dynamic_fee
        { Market.new 0 "q" ["yes", "no"] 100
            { provider := .Reflector, feed_id := "BTC/USD", threshold := 1,
              comparison := "gt" } .Active
          with total_staked := 2000000000 } =
      .ok (max MIN_FEE_AMOUNT (40000000 * 80 / 100)) :=
  (dynamic_fee_tiers _ 40000000 (by decide)).1 (by decide)

/-- Claim C9, counterexample: a creation-parameter record whose oracle
config has a valid threshold but an unsupported comparison operator
("xx") makes `validate` fail with `InvalidInput`, which is none of
`InvalidConfig`, `InvalidThreshold`, `InvalidOracleFeed` — refuting the
claim's list of possible oracle-validation errors. -/
theorem create_validation_counterexample :
    MarketCreationParams.validate
        { admin := 0, question := "q", outcomes := ["yes", "no"],
          duration_days := 30,
          oracle_config := { provider := .Reflector, feed_id := "BTC/USD",
                             threshold := 1, comparison := "xx" },
          creation_fee := 0 } = .err .InvalidInput ∧
    Error.InvalidInput ≠ Error.InvalidConfig ∧
    Error.InvalidInput ≠ Error.InvalidThreshold ∧
    Error.InvalidInput ≠ Error.InvalidOracleFeed := by
  decide

/-- Claim C9 (amended): `MarketCreationParams::validate` fails with
`InvalidInput` when the question is empty, `InvalidOutcome` when fewer
than 2 outcomes are supplied, `InvalidInput` when `duration_days` is 0
or exceeds 365, and — for the oracle config, in check order —
`InvalidThreshold` when threshold ≤ 0, `InvalidInput` (not one of the
three errors the claim lists) when the comparison is not one of
"gt"/"lt"/"eq", `InvalidOracleFeed` when the feed id is empty, and
`InvalidConfig` when the provider is unsupported; it succeeds
otherwise. -/
theorem create_validation (p : MarketCreationParams) :
    (p.question.isEmpty = true →
      p.validate = .err .InvalidInput) ∧
    (p.question.isEmpty = false → p.outcomes.length < 2 →
      p.validate = .err .InvalidOutcome) ∧
    (p.question.isEmpty = false → ¬ p.outcomes.length < 2 →
      p.duration_days = 0 ∨ p.duration_days > 365 →
      p.validate = .err .InvalidInput) ∧
    (p.question.isEmpty = false → ¬ p.outcomes.length < 2 →
      ¬ (p.duration_days = 0 ∨ p.duration_days > 365) →
      (p.oracle_config.threshold ≤ 0 →
        p.validate = .err .InvalidThreshold) ∧
      (¬ p.oracle_config.threshold ≤ 0 →
        p.oracle_config.comparison ≠ "gt" ∧ p.oracle_config.comparison ≠ "lt" ∧
          p.oracle_config.comparison ≠ "eq" →
        p.validate = .err .InvalidInput) ∧
      (¬ p.oracle_config.threshold ≤ 0 →
        ¬ (p.oracle_config.comparison ≠ "gt" ∧ p.oracle_config.comparison ≠ "lt" ∧
            p.oracle_config.comparison ≠ "eq") →
        p.oracle_config.feed_id.isEmpty = true →
        p.validate = .err .InvalidOracleFeed) ∧
      (¬ p.oracle_config.threshold ≤ 0 →
        ¬ (p.oracle_config.comparison ≠ "gt" ∧ p.oracle_config.comparison ≠ "lt" ∧
            p.oracle_config.comparison ≠ "eq") →
        p.oracle_config.feed_id.isEmpty = false →
        p.oracle_config.provider.is_supported = true →
        p.validate = .ok ()) ∧
      (¬ p.oracle_config.threshold ≤ 0 →
        ¬ (p.oracle_config.comparison ≠ "gt" ∧ p.oracle_config.comparison ≠ "lt" ∧
            p.oracle_config.comparison ≠ "eq") →
        p.oracle_config.feed_id.isEmpty = false →
        p.oracle_config.provider.is_supported = false →
        p.validate = .err .InvalidConfig)) := by
  unfold MarketCreationParams.validate OracleConfig.validate
  refine ⟨?_, ?_, ?_, ?_⟩ <;>
    · intros
      split_ifs <;> simp_all

/-- Claim C9, witness: fully valid parameters validate successfully,
and each early check fires on a concrete bad input. -/
theorem create_validation_witness :
    MarketCreationParams.validate
        { admin := 0, question := "q", outcomes := ["yes", "no"],
          duration_days := 30,
          oracle_config := { provider := .Reflector, feed_id := "BTC/USD",
                             threshold := 1, comparison := "gt" },
          creation_fee := 0 } = .ok () ∧
    MarketCreationParams.validate
        { admin := 0, question := "", outcomes := ["yes", "no"],
          duration_days := 30,
          oracle_config := { provider := .Reflector, feed_id := "BTC/USD",
                             threshold := 1, comparison := "gt" },
          creation_fee := 0 } = .err .InvalidInput :=
  ⟨((create_validation _).2.2.2 (by decide) (by decide) (by decide)).2.2.2.1
      (by decide) (by decide) (by decide) (by decide),
    (create_validation _).1 (by decide)⟩

/-- Sum of the values of a stakes map after a `set` on a key that is
not yet bound: the sum grows by exactly the new value. -/
theorem mapSet_sum_of_unbound (l : List (Address × Int)) (k : Address) (v : Int)
    (h : mapGet l k = none) :
    ((mapSet l k v).map (fun p => p.2)).sum = (l.map (fun p => p.2)).sum + v := by
  induction l with
  | nil => simp [mapSet, mapGet]
  | cons hd tl ih =>
    obtain ⟨k', v'⟩ := hd
    by_cases hk : k' = k
    · exfalso
      simp [mapGet, hk] at h
    · simp only [mapGet, if_neg hk] at h
      simp only [mapSet, if_neg hk, List.map_cons, List.sum_cons, ih h]
      ring

/-- Claim C4 (amended): a freshly created `Market` has
`total_staked == 0` with an empty stakes map (so the sum invariant
holds), and `add_vote` preserves `total_staked == Σ stakes[*]` and
increases both sides by exactly the stake amount PROVIDED the user has
no stake recorded yet.  (As stated — over arbitrary sequences of
`add_vote` operations — the claim fails: `add_vote` for a user already
in the map overwrites the old stake in the map but still adds the full
new stake to `total_staked`; see the counterexample.) -/
theorem stake_sum_invariant :
    (∀ (admin : Address) (q : String) (outcomes : List String) (et : Nat)
        (cfg : OracleConfig) (ms : MarketState),
      (Market.new admin q outcomes et cfg ms).total_staked = 0 ∧
      (Market.new admin q outcomes et cfg ms).stakes = [] ∧
      (Market.new admin q outcomes et cfg ms).total_staked =
        stakesSum (Market.new admin q outcomes et cfg ms)) ∧
    (∀ (m : Market) (user : Address) (outcome : String) (stake : Int),
      mapGet m.stakes user = none →
      m.total_staked = stakesSum m →
      (m.add_vote user outcome stake).total_staked =
        stakesSum (m.add_vote user outcome stake) ∧
      stakesSum (m.add_vote user outcome stake) = stakesSum m + stake ∧
      (m.add_vote user outcome stake).total_staked = m.total_staked + stake) := by
  constructor
  · intro admin q outcomes et cfg ms
    exact ⟨rfl, rfl, rfl⟩
  · intro m user outcome stake h hinv
    have hsum : stakesSum (m.add_vote user outcome stake) = stakesSum m + stake := by
      unfold stakesSum Market.add_vote
      exact mapSet_sum_of_unbound m.stakes user stake h
    refine ⟨?_, hsum, rfl⟩
    rw [hsum, ← hinv]
    rfl

/-- Claim C4, counterexample: two `add_vote` calls by the SAME user
(stakes 5 then 3) leave `total_staked = 8` while the stakes map sums
to 3 — the sum invariant is not preserved by every sequence of
stake-recording operations. -/
theorem stake_sum_counterexample :
    (((Market.new 0 "q" ["a", "b"] 100
        { provider := .Reflector, feed_id := "BTC/USD", threshold := 1,
          comparison := "gt" } .Active).add_vote 1 "a" 5).add_vote 1 "b" 3).total_staked
      = 8 ∧
    stakesSum (((Market.new 0 "q" ["a", "b"] 100
        { provider := .Reflector, feed_id := "BTC/USD", threshold := 1,
          comparison := "gt" } .Active).add_vote 1 "a" 5).add_vote 1 "b" 3) = 3 ∧
    (8 : Int) ≠ 3 := by
  decide

/-- Claim C4, witness: a single `add_vote` by a fresh user on a fresh
market preserves the invariant and adds exactly the stake. -/
theorem stake_sum_invariant_witness :
    stakesSum ((Market.new 0 "q" ["a", "b"] 100
        { provider := .Reflector, feed_id := "BTC/USD", threshold := 1,
          comparison := "gt" } .Active).add_vote 1 "a" 5) =
      stakesSum (Market.new 0 "q" ["a", "b"] 100
        { provider := .Reflector, feed_id := "BTC/USD", threshold := 1,
          comparison := "gt" } .Active) + 5 :=
  (stake_sum_invariant.2 _ 1 "a" 5 (by decide) (by decide)).2.1

/-- The concrete resolved market used to exhibit the double-claim bug:
one voter (address 1) staked 100 on the winning outcome "yes", nothing
claimed yet. -/
def doubleClaimMarket : Market :=
  { Market.new 1 "q" ["yes", "no"] 100
      { provider := .Reflector, feed_id := "BTC/USD", threshold := 1,
        comparison := "gt" } .Resolved
    with
    votes := [(1, "yes")]
    stakes := [(1, 100)]
    total_staked := 100
    winning_outcome := some "yes" }

/-- `doubleClaimMarket` after the first successful claim: the `claimed`
flag for address 1 is set. -/
def doubleClaimMarketClaimed : Market :=
  { doubleClaimMarket with claimed := [(1, true)] }

/-- Claim C2: evaluation of `process_winnings_claim` at the failing
input.  The first call pays out 98 and marks `claimed[1] = true`, but
the function never READS the `claimed` map, so a second call by the
same user on the already-claimed market succeeds again with the same
payout instead of failing `AlreadyClaimed`/`NothingToClaim` — the user
can be credited arbitrarily many payouts. -/
theorem double_claim_not_prevented :
    PredictifyHybrid.process_winnings_claim (some doubleClaimMarket) 1 =
      .ok (98, doubleClaimMarketClaimed) ∧
    mapGet doubleClaimMarketClaimed.claimed 1 = some true ∧
    PredictifyHybrid.process_winnings_claim (some doubleClaimMarketClaimed) 1 =
      .ok (98, doubleClaimMarketClaimed) := by
  decide

/-- Whenever `after_external_call` completes, the stored status is back
to `NOT_ENTERED`, for both values of `success`. -/
theorem after_external_call_ok_status (g : ReentrancyGuard) (success : Bool)
    (s : ReentrancyStorage) (r : ReentrancyGuard × ReentrancyStorage)
    (h : g.after_external_call success s = .ok r) :
    r.2.status = REENTRANCY_NOT_ENTERED := by
  unfold ReentrancyGuard.after_external_call at h
  cases hga : g.is_active with
  | false => rw [hga] at h; cases h
  | true =>
    rw [hga] at h
    cases hc : ReentrancyGuard.check_reentrancy_state s with
    | err e =>
      rw [hc] at h
      simp at h
    | ok u =>
      rw [hc] at h
      simp only [Bool.not_true, Bool.false_eq_true, if_false, Result.ok.injEq] at h
      subst h
      rfl

/-- From any state whose status is `NOT_ENTERED`, a fresh guarded call
(`ReentrancyGuard::new` followed by `before_external_call`) succeeds. -/
theorem fresh_guard_succeeds (s : ReentrancyStorage)
    (h : s.status = REENTRANCY_NOT_ENTERED) :
    ReentrancyGuard.new s = .ok { is_active := false } ∧
    ReentrancyGuard.before_external_call { is_active := false } s =
      .ok ({ is_active := true },
           { status := REENTRANCY_ENTERED, callCount := s.callCount + 1 }) := by
  unfold ReentrancyGuard.new ReentrancyGuard.before_external_call
  rw [h]
  exact ⟨by rw [if_neg (by decide)], by rw [if_neg (by decide)]⟩

/-- Claim C8: while one guarded operation is between
`before_external_call` and `after_external_call`, every attempt to
start another guarded operation (any guard, hence any function or
caller) fails `ReentrancyAttack`; `after_external_call` fails
`InvalidReentrancyState` if this guard was never entered; and whenever
`after_external_call` completes (with `success` true or false) the
global status is back to `NOT_ENTERED` and a fresh guarded call
(`new` followed by `before_external_call`) succeeds. -/
theorem reentrancy_exclusion :
    (∀ (g g' : ReentrancyGuard) (s s' : ReentrancyStorage),
      g.before_external_call s = .ok (g', s') →
      (∀ g2 : ReentrancyGuard,
        g2.before_external_call s' = .err .ReentrancyAttack) ∧
      ReentrancyGuard.new s' = .err .ReentrancyAttack) ∧
    (∀ (g : ReentrancyGuard) (success : Bool) (s : ReentrancyStorage),
      g.is_active = false →
      g.after_external_call success s = .err .InvalidReentrancyState) ∧
    (∀ (g : ReentrancyGuard) (success : Bool) (s : ReentrancyStorage)
        (r : ReentrancyGuard × ReentrancyStorage),
      g.after_external_call success s = .ok r →
      r.2.status = REENTRANCY_NOT_ENTERED ∧
      (∃ g3, ReentrancyGuard.new r.2 = .ok g3 ∧
        ∃ g4 s4, g3.before_external_call r.2 = .ok (g4, s4))) := by
  refine ⟨?_, ?_, ?_⟩
  · intro g g' s s' h
    unfold ReentrancyGuard.before_external_call at *
    split_ifs at h with h1
    simp only [Result.ok.injEq, Prod.mk.injEq] at h
    obtain ⟨-, rfl⟩ := h
    constructor
    · intro g2
      rw [if_pos rfl]
    · unfold ReentrancyGuard.new
      rw [if_pos rfl]
  · intro g success s h
    unfold ReentrancyGuard.after_external_call
    rw [h]
    rfl
  · intro g success s r h
    have hst := after_external_call_ok_status g success s r h
    obtain ⟨hnew, hbefore⟩ := fresh_guard_succeeds r.2 hst
    exact ⟨hst, { is_active := false }, hnew, { is_active := true }, _, hbefore⟩

/-- Claim C8, witness: from the clean initial state (status
`NOT_ENTERED`, count 0), entering the guard produces the `ENTERED`
state in which a second `before_external_call` and a fresh
`ReentrancyGuard::new` both fail `ReentrancyAttack`; completing
`after_external_call` restores `NOT_ENTERED`. -/
theorem reentrancy_exclusion_witness :
    ReentrancyGuard.before_external_call { is_active := false }
      { status := 2, callCount := 1 } = .err .ReentrancyAttack ∧
    ReentrancyGuard.new { status := 2, callCount := 1 } =
      .err .ReentrancyAttack ∧
    ReentrancyGuard.after_external_call { is_active := false } true
      { status := 2, callCount := 1 } = .err .InvalidReentrancyState ∧
    (Prod.mk ({ is_active := false } : ReentrancyGuard)
      ({ status := 1, callCount := 0 } : ReentrancyStorage)).2.status =
      REENTRANCY_NOT_ENTERED :=
  ⟨(reentrancy_exclusion.1 { is_active := false } { is_active := true }
      { status := 1, callCount := 0 } { status := 2, callCount := 1 }
      (by decide)).1 { is_active := false },
   (reentrancy_exclusion.1 { is_active := false } { is_active := true }
      { status := 1, callCount := 0 } { status := 2, callCount := 1 }
      (by decide)).2,
   reentrancy_exclusion.2.1 { is_active := false } true
      { status := 2, callCount := 1 } rfl,
   (reentrancy_exclusion.2.2 { is_active := true } true
      { status := 2, callCount := 1 }
      (Prod.mk { is_active := false } { status := 1, callCount := 0 })
      (by decide)).1⟩

/-- Admin permission validation succeeds exactly when the stored admin
equals the caller. -/
theorem validate_admin_ok_iff (sa : Option Address) (admin : Address) :
    FeeValidator.validate_admin_permissions sa admin = .ok () ↔
      sa = some admin := by
  cases sa with
  | none => simp [FeeValidator.validate_admin_permissions]
  | some a =>
    simp only [FeeValidator.validate_admin_permissions]
    split_ifs with h
    · simp
      intro heq
      exact h heq.symm
    · simp only [ne_eq, Decidable.not_not] at h
      simp [h]

/-- `collect_fees` on a market whose fees are already collected fails
`FeeAlreadyCollected` (for an authorized caller and a resolved market). -/
theorem collect_fees_already (st : Storage) (transfer : Result Unit)
    (admin : Address) (m : Market) (hadm : st.admin = some admin)
    (hm : st.market = some m) (hw : m.winning_outcome ≠ none)
    (hfc : m.fee_collected = true) :
    FeeManager.collect_fees st transfer admin = .err .FeeAlreadyCollected := by
  unfold FeeManager.collect_fees MarketStateManager.get_market
  rw [(validate_admin_ok_iff _ _).mpr hadm, hm]
  dsimp only
  unfold FeeValidator.validate_market_for_fee_collection
  rw [if_neg hw, if_pos hfc]

/-- Claim C6: `FeeManager::collect_fees` fails `Unauthorized` when the
caller is not the stored admin (or no admin is stored),
`MarketNotResolved` when `winning_outcome` is `None`,
`FeeAlreadyCollected` when `fee_collected` is already true, and
`InsufficientStake` when `total_staked < FEE_COLLECTION_THRESHOLD`;
on success it writes back the market with `fee_collected = true`, and
the flag write happens only after all checks AND the fee transfer: a
failed transfer aborts the call with the transfer's error and no
write-back occurs, so `fee_collected` transitions false→true exactly
once (a second call fails `FeeAlreadyCollected`). -/
theorem collect_fees_gating (st : Storage) (transfer : Result Unit)
    (admin : Address) :
    (st.admin = none →
      FeeManager.collect_fees st transfer admin = .err .Unauthorized) ∧
    (∀ a, st.admin = some a → admin ≠ a →
      FeeManager.collect_fees st transfer admin = .err .Unauthorized) ∧
    (∀ m, st.admin = some admin → st.market = some m →
      (m.winning_outcome = none →
        FeeManager.collect_fees st transfer admin = .err .MarketNotResolved) ∧
      (m.winning_outcome ≠ none → m.fee_collected = true →
        FeeManager.collect_fees st transfer admin = .err .FeeAlreadyCollected) ∧
      (m.winning_outcome ≠ none → m.fee_collected = false →
        m.total_staked < FEE_COLLECTION_THRESHOLD →
        FeeManager.collect_fees st transfer admin = .err .InsufficientStake)) ∧
    (∀ m fee e, st.admin = some admin → st.market = some m →
      FeeValidator.validate_market_for_fee_collection m = .ok () →
      FeeCalculator.calculate_platform_fee m = .ok fee →
      FeeValidator.validate_fee_amount fee = .ok () →
      transfer = .err e →
      FeeManager.collect_fees st transfer admin = .err e) ∧
    (∀ fee st', FeeManager.collect_fees st transfer admin = .ok (fee, st') →
      transfer = .ok () ∧
      ∃ m, st.market = some m ∧ m.fee_collected = false ∧
        st' = { st with market := some { m with fee_collected := true } } ∧
        ∀ transfer2,
          FeeManager.collect_fees st' transfer2 admin =
            .err .FeeAlreadyCollected) := by
  refine ⟨?_, ?_, ?_, ?_, ?_⟩
  · intro h
    unfold FeeManager.collect_fees FeeValidator.validate_admin_permissions
    rw [h]
  · intro a ha hne
    unfold FeeManager.collect_fees FeeValidator.validate_admin_permissions
    rw [ha]
    dsimp only
    rw [if_pos hne]
  · intro m hadmin hmkt
    refine ⟨?_, ?_, ?_⟩
    · intro hw
      unfold FeeManager.collect_fees MarketStateManager.get_market
      rw [(validate_admin_ok_iff _ _).mpr hadmin, hmkt]
      dsimp only
      unfold FeeValidator.validate_market_for_fee_collection
      rw [if_pos hw]
    · intro hw hfc
      exact collect_fees_already st transfer admin m hadmin hmkt hw hfc
    · intro hw hfc hts
      unfold FeeManager.collect_fees MarketStateManager.get_market
      rw [(validate_admin_ok_iff _ _).mpr hadmin, hmkt]
      dsimp only
      unfold FeeValidator.validate_market_for_fee_collection
      rw [if_neg hw]
      simp only [hfc, Bool.false_eq_true, if_false]
      rw [if_pos hts]
  · intro m fee e hadmin hmkt hval hfee hamt htr
    unfold FeeManager.collect_fees MarketStateManager.get_market
    rw [(validate_admin_ok_iff _ _).mpr hadmin, hmkt]
    dsimp only
    rw [hval]
    dsimp only
    rw [hfee]
    dsimp only
    rw [hamt]
    dsimp only
    rw [htr]
  · intro fee st' h
    unfold FeeManager.collect_fees at h
    cases hauth : FeeValidator.validate_admin_permissions st.admin admin with
    | err e => rw [hauth] at h; cases h
    | ok _ =>
      rw [hauth] at h
      dsimp only at h
      cases hget : MarketStateManager.get_market st with
      | err e => rw [hget] at h; cases h
      | ok m =>
        rw [hget] at h
        dsimp only at h
        cases hval : FeeValidator.validate_market_for_fee_collection m with
        | err e => rw [hval] at h; cases h
        | ok u =>
          rw [hval] at h
          dsimp only at h
          cases hfee : FeeCalculator.calculate_platform_fee m with
          | err e => rw [hfee] at h; cases h
          | ok f =>
            rw [hfee] at h
            dsimp only at h
            cases hamt : FeeValidator.validate_fee_amount f with
            | err e => rw [hamt] at h; cases h
            | ok u2 =>
              rw [hamt] at h
              dsimp only at h
              cases htr : transfer with
              | err e => rw [htr] at h; cases h
              | ok u3 =>
                rw [htr] at h
                dsimp only at h
                simp only [Result.ok.injEq, Prod.mk.injEq] at h
                obtain ⟨-, rfl⟩ := h
                have hadm : st.admin = some admin :=
                  (validate_admin_ok_iff _ _).mp (by rw [hauth])
                have hm : st.market = some m := by
                  unfold MarketStateManager.get_market at hget
                  cases hmm : st.market with
                  | none => rw [hmm] at hget; cases hget
                  | some m0 =>
                    rw [hmm] at hget
                    simp only [Result.ok.injEq] at hget
                    rw [hget]
                have hok := (validate_market_ok_iff m).mp (by rw [hval])
                refine ⟨rfl, m, hm, hok.2.1, rfl, ?_⟩
                intro transfer2
                exact collect_fees_already _ transfer2 admin
                  { m with fee_collected := true } hadm rfl hok.1 rfl

/-- Claim C6, witness: an authorized call on a resolved, uncollected
market whose stake is below the collection threshold fails
`InsufficientStake`, as the gating theorem predicts. -/
theorem collect_fees_gating_witness :
    FeeManager.collect_fees
      { admin := some 7,
        market := some { Market.new 7 "q" ["yes", "no"] 100
            { provider := .Reflector, feed_id := "BTC/USD", threshold := 1,
              comparison := "gt" } .Resolved
          with total_staked := 50000000, winning_outcome := some "yes" } }
      (.ok ()) 7 = .err .InsufficientStake :=
  ((collect_fees_gating _ _ 7).2.2.1 _ rfl rfl).2.2 (by decide) rfl (by decide)

/-- Pointwise-equal functions have equal mapped sums. -/
theorem list_sum_map_congr (l : List Int) (f g : Int → Int)
    (h : ∀ s ∈ l, f s = g s) : (l.map f).sum = (l.map g).sum := by
  induction l with
  | nil => simp
  | cons a t ih =>
    simp only [List.map_cons, List.sum_cons]
    rw [h a (by simp), ih (fun s hs => h s (by simp [hs]))]

/-- Division-with-remainder decomposition summed over a list:
`c * Σ (f s / c) + Σ (f s % c) = Σ f s`. -/
theorem sum_ediv_emod_decomp (l : List Int) (f : Int → Int) (c : Int) :
    c * (l.map (fun s => f s / c)).sum + (l.map (fun s => f s % c)).sum
      = (l.map f).sum := by
  induction l with
  | nil => simp
  | cons a t ih =>
    simp only [List.map_cons, List.sum_cons]
    calc c * (f a / c + (t.map (fun s => f s / c)).sum)
          + (f a % c + (t.map (fun s => f s % c)).sum)
        = (c * (f a / c) + f a % c)
          + (c * (t.map (fun s => f s / c)).sum
            + (t.map (fun s => f s % c)).sum) := by ring
      _ = f a + (t.map f).sum := by rw [Int.ediv_add_emod (f a) c, ih]

/-- Summing `s * c` over a list is the list sum times `c`. -/
theorem sum_map_mul_right (l : List Int) (c : Int) :
    (l.map (fun s => s * c)).sum = l.sum * c := by
  induction l with
  | nil => simp
  | cons a t ih =>
    simp only [List.map_cons, List.sum_cons, ih]
    ring

/-- Summing `f s * c` over a list is `c` times the sum of `f`. -/
theorem sum_map_mul_const (l : List Int) (c : Int) (f : Int → Int) :
    (l.map (fun s => f s * c)).sum = c * (l.map f).sum := by
  induction l with
  | nil => simp
  | cons a t ih =>
    simp only [List.map_cons, List.sum_cons, ih]
    ring

/-- A mapped sum with every term bounded by `c` is at most
`c * length`. -/
theorem sum_map_le_const_mul (l : List Int) (f : Int → Int) (c : Int)
    (h : ∀ s ∈ l, f s ≤ c) : (l.map f).sum ≤ c * l.length := by
  induction l with
  | nil => simp
  | cons a t ih =>
    simp only [List.map_cons, List.sum_cons, List.length_cons]
    have h1 : f a ≤ c := h a (by simp)
    have h2 : (t.map f).sum ≤ c * t.length := ih (fun s hs => h s (by simp [hs]))
    push_cast
    nlinarith

/-- A mapped sum of non-negative terms is non-negative. -/
theorem sum_map_nonneg (l : List Int) (f : Int → Int)
    (h : ∀ s ∈ l, 0 ≤ f s) : 0 ≤ (l.map f).sum := by
  induction l with
  | nil => simp
  | cons a t ih =>
    simp only [List.map_cons, List.sum_cons]
    have h1 : 0 ≤ f a := h a (by simp)
    have h2 : 0 ≤ (t.map f).sum := ih (fun s hs => h s (by simp [hs]))
    linarith

/-- Claim C1, counterexample: a market with a single winning voter whose
stake is the whole pool (`total_staked = winning_total = 99`) loses 1
unit to truncation: `fee + payout = 1 + 97 = 98 = 99 - 1`, so the
rounding remainder is 1, which is NOT strictly less than the number of
winning voters (1). -/
theorem conservation_counterexample :
    99 * PLATFORM_FEE_PERCENTAGE / 100 +
      (([99] : List Int).map
        (fun s => FeeCalculator.payoutAfterFeesVal s ([99] : List Int).sum 99)).sum
      = 99 - 1 ∧
    ¬ ((1 : Int) < (([99] : List Int).length : Int)) := by
  decide

/-- Claim C1 (amended): for every list of winning-voter stakes (each
non-negative) summing to `winning_total > 0` and every
`total_staked ≥ winning_total`, each winner's payout is computed by
`calculate_user_payout_after_fees`, and the platform fee
(`total_staked * 2 / 100`) plus the sum of all winning payouts equals
`total_staked` minus a non-negative rounding remainder that is strictly
less than TWICE the number of winning voters (each payout truncates at
two divisions, so the per-winner loss can reach 2 units; the claim's
bound of one unit per winner fails — see the counterexample). -/
theorem conservation_of_funds (winners : List Int) (T : Int)
    (hpos : ∀ s ∈ winners, 0 ≤ s) (hW : 0 < winners.sum)
    (hT : winners.sum ≤ T) :
    (∀ s ∈ winners,
      FeeCalculator.calculate_user_payout_after_fees s winners.sum T =
        .ok (FeeCalculator.payoutAfterFeesVal s winners.sum T)) ∧
    0 ≤ T - (T * PLATFORM_FEE_PERCENTAGE / 100 +
      (winners.map (fun s => FeeCalculator.payoutAfterFeesVal s winners.sum T)).sum) ∧
    T - (T * PLATFORM_FEE_PERCENTAGE / 100 +
      (winners.map (fun s => FeeCalculator.payoutAfterFeesVal s winners.sum T)).sum)
      < 2 * (winners.length : Int) := by
  have hn1 : 1 ≤ (winners.length : Int) := by
    cases winners with
    | nil => simp at hW
    | cons a t => simp
  set W := winners.sum with hWdef
  have hWne : W ≠ 0 := ne_of_gt hW
  have hval : ∀ s : Int,
      FeeCalculator.payoutAfterFeesVal s W T = s * T / W * 98 / 100 := by
    intro s
    unfold FeeCalculator.payoutAfterFeesVal
    norm_num [PLATFORM_FEE_PERCENTAGE, config.DEFAULT_PLATFORM_FEE_PERCENTAGE]
  refine ⟨?_, ?_⟩
  · intro s hs
    unfold FeeCalculator.calculate_user_payout_after_fees
      FeeCalculator.payoutAfterFeesVal
    rw [if_neg hWne]
  have hPmap :
      (winners.map (fun s => FeeCalculator.payoutAfterFeesVal s W T)).sum =
        (winners.map (fun s => s * T / W * 98 / 100)).sum :=
    list_sum_map_congr _ _ _ (fun s _ => hval s)
  have hfee : T * PLATFORM_FEE_PERCENTAGE / 100 = T * 2 / 100 := by
    norm_num [PLATFORM_FEE_PERCENTAGE, config.DEFAULT_PLATFORM_FEE_PERCENTAGE]
  rw [hPmap, hfee]
  set B := (winners.map (fun s => s * T / W)).sum with hB
  set R := (winners.map (fun s => s * T % W)).sum with hR
  set P := (winners.map (fun s => s * T / W * 98 / 100)).sum with hP
  set S := (winners.map (fun s => s * T / W * 98 % 100)).sum with hS
  set n : Int := (winners.length : Int) with hn
  -- Stake-level division decomposition: W * B + R = W * T.
  have hWB : W * B + R = W * T := by
    have h1 := sum_ediv_emod_decomp winners (fun s => s * T) W
    have h2 : (winners.map (fun s => s * T)).sum = W * T := by
      rw [sum_map_mul_right winners T, hWdef]
    rw [h2] at h1
    exact h1
  -- Payout-level division decomposition: 100 * P + S = 98 * B.
  have hPS : 100 * P + S = 98 * B := by
    have h1 := sum_ediv_emod_decomp winners (fun s => s * T / W * 98) 100
    have h2 : (winners.map (fun s => s * T / W * 98)).sum = 98 * B :=
      sum_map_mul_const winners 98 (fun s => s * T / W)
    rw [h2] at h1
    exact h1
  have hR0 : 0 ≤ R := sum_map_nonneg _ _ (fun s _ => Int.emod_nonneg _ hWne)
  have hRle : R ≤ (W - 1) * n := by
    have := sum_map_le_const_mul winners (fun s => s * T % W) (W - 1)
      (fun s _ => by
        show s * T % W ≤ W - 1
        have := Int.emod_lt_of_pos (s * T) hW
        omega)
    rw [hn]
    exact this
  have hS0 : 0 ≤ S :=
    sum_map_nonneg _ _ (fun s _ => Int.emod_nonneg _ (by norm_num))
  have hSle : S ≤ 99 * n := by
    have := sum_map_le_const_mul winners (fun s => s * T / W * 98 % 100) 99
      (fun s _ => by
        show s * T / W * 98 % 100 ≤ 99
        have := Int.emod_lt_of_pos (s * T / W * 98) (by norm_num : (0:Int) < 100)
        omega)
    rw [hn]
    exact this
  -- q := T - B satisfies 0 ≤ q < n.
  have hq : W * (T - B) = R := by linear_combination -hWB
  have hq0 : 0 ≤ T - B := by
    have hle : W * 0 ≤ W * (T - B) := by
      rw [mul_zero, hq]
      exact hR0
    exact le_of_mul_le_mul_left hle hW
  have hqn : T - B < n := by
    have hlt : W * (T - B) < W * n := by
      rw [hq]
      nlinarith
    exact lt_of_mul_lt_mul_left hlt (le_of_lt hW)
  -- Fee division decomposition.
  have hfd := Int.ediv_add_emod (T * 2) 100
  have hτ0 : 0 ≤ T * 2 % 100 := Int.emod_nonneg _ (by norm_num)
  have hτ99 : T * 2 % 100 < 100 :=
    Int.emod_lt_of_pos _ (by norm_num)
  -- Everything is now linear in B, P, S, T, n, the fee quotient and
  -- the fee remainder.
  omega

/-- Claim C1, witness: winners staking 100 and 50 in a pool of 200
(one losing stake of 50): fee 4 plus payouts 130 + 64 equals
198 = 200 - 2, with remainder 2 < 2 * 2. -/
theorem conservation_of_funds_witness :
    0 ≤ 200 - (200 * PLATFORM_FEE_PERCENTAGE / 100 +
      (([100, 50] : List Int).map
        (fun s => FeeCalculator.payoutAfterFeesVal s ([100, 50] : List Int).sum 200)).sum) ∧
    200 - (200 * PLATFORM_FEE_PERCENTAGE / 100 +
      (([100, 50] : List Int).map
        (fun s => FeeCalculator.payoutAfterFeesVal s ([100, 50] : List Int).sum 200)).sum)
      < 2 * (([100, 50] : List Int).length : Int) :=
  (conservation_of_funds [100, 50] 200 (by decide) (by decide) (by decide)).2

/-- Claim C3, counterexample: at `user_stake = 1`, `winning_total = 1`,
`total_pool = 100` the payout computed inside `process_winnings_claim`
(fee reduction first: `(1*98/100)*100/1 = 0`) differs from the Fee
Engine reference (pool share first: `(1*100/1)*98/100 = 98`), so the
two functions are NOT equal as functions with truncating division. -/
theorem payout_refinement_counterexample :
    PredictifyHybrid.claimPayout 1 100 1 = 0 ∧
    FeeCalculator.calculate_user_payout_after_fees 1 1 100 = .ok 98 ∧
    (0 : Int) ≠ 98 := by
  decide

/-- Claim C3 (amended): the two payout computations agree whenever no
truncation occurs in the first division of either order — i.e. whenever
`100 ∣ user_stake * (100 - FEE_PERCENTAGE)` and
`winning_total ∣ user_stake * total_pool`; in general they differ (see
the counterexample), because `process_winnings_claim` applies the fee
reduction before the pool multiplication while the Fee Engine divides
by `winning_total` first. -/
theorem payout_refinement_under_exact_division (s W T : Int)
    (hs : 0 ≤ s) (hT : 0 ≤ T) (hW : 0 < W)
    (h100 : (100 : Int) ∣ s * (100 - PLATFORM_FEE_PERCENTAGE))
    (hWd : W ∣ s * T) :
    FeeCalculator.calculate_user_payout_after_fees s W T =
      .ok (PredictifyHybrid.claimPayout s T W) := by
  obtain ⟨k, hk⟩ := h100
  obtain ⟨b, hb⟩ := hWd
  simp only [PLATFORM_FEE_PERCENTAGE, config.DEFAULT_PLATFORM_FEE_PERCENTAGE] at hk
  norm_num at hk
  unfold FeeCalculator.calculate_user_payout_after_fees PredictifyHybrid.claimPayout
  rw [if_neg (by omega)]
  dsimp only
  simp only [PLATFORM_FEE_PERCENTAGE, config.DEFAULT_PLATFORM_FEE_PERCENTAGE,
    PERCENTAGE_DENOMINATOR, FEE_PERCENTAGE]
  norm_num
  have e1 : s * T / W = b := by
    rw [hb]
    exact Int.mul_ediv_cancel_left b (by omega)
  have e2 : s * 98 / 100 = k := by
    rw [hk]
    exact Int.mul_ediv_cancel_left k (by norm_num)
  rw [e1, e2]
  set q := k * T / W with hq
  have hqr : W * q + k * T % W = k * T := Int.ediv_add_emod (k * T) W
  set r := k * T % W with hrdef
  have hr0 : 0 ≤ r := Int.emod_nonneg _ (by omega)
  have hrW : r < W := Int.emod_lt_of_pos _ hW
  have hWt : W * (b * 98 - 100 * q) = 100 * r := by
    have h1 : W * (b * 98) = 100 * (k * T) := by
      calc W * (b * 98) = (W * b) * 98 := by ring
        _ = (s * T) * 98 := by rw [hb]
        _ = (s * 98) * T := by ring
        _ = (100 * k) * T := by rw [hk]
        _ = 100 * (k * T) := by ring
    calc W * (b * 98 - 100 * q) = W * (b * 98) - 100 * (W * q) := by ring
      _ = 100 * (k * T) - 100 * (W * q) := by rw [h1]
      _ = 100 * (k * T - W * q) := by ring
      _ = 100 * r := by rw [show k * T - W * q = r by linarith]
  have ht0 : 0 ≤ b * 98 - 100 * q := by
    have hle : W * 0 ≤ W * (b * 98 - 100 * q) := by
      rw [mul_zero, hWt]
      linarith
    exact le_of_mul_le_mul_left hle hW
  have ht100 : b * 98 - 100 * q < 100 := by
    have hlt : W * (b * 98 - 100 * q) < W * 100 := by
      rw [hWt]
      calc (100 : Int) * r < 100 * W := by linarith
        _ = W * 100 := by ring
    exact lt_of_mul_lt_mul_left hlt (le_of_lt hW)
  have hsplit : b * 98 = (b * 98 - 100 * q) + 100 * q := by ring
  rw [hsplit, Int.add_mul_ediv_left _ q (by norm_num : (100 : Int) ≠ 0),
    Int.ediv_eq_zero_of_lt ht0 ht100]
  simp

/-- Claim C3, witness: at `user_stake = 50`, `winning_total = 5`,
`total_pool = 10` both divisibility conditions hold and both payout
orders give 98. -/
theorem payout_refinement_witness :
    FeeCalculator.calculate_user_payout_after_fees 50 5 10 =
      .ok (PredictifyHybrid.claimPayout 50 10 5) :=
  payout_refinement_under_exact_division 50 5 10 (by decide) (by decide)
    (by decide) ⟨49, by decide⟩ ⟨100, by decide⟩

/-- Claim C10: an admin-authorized call of `resolve_market_manual`
(the caller is the stored admin — a non-admin caller aborts
`Unauthorized` inside `errors::helpers::require_admin` with no state
change) removes the market record from storage entirely, ignores its
`winning_outcome` argument, and afterwards `get_market` returns
`None`. -/
theorem resolve_market_manual_removes (st : Storage) (admin : Address)
    (w w' : String) (h : st.admin = some admin) :
    PredictifyHybrid.resolve_market_manual st admin w =
      .ok { st with market := none } ∧
    PredictifyHybrid.resolve_market_manual st admin w =
      PredictifyHybrid.resolve_market_manual st admin w' ∧
    PredictifyHybrid.get_market { st with market := none } = none ∧
    (∀ caller : Address, caller ≠ admin →
      PredictifyHybrid.resolve_market_manual st caller w =
        .err .Unauthorized) := by
  unfold PredictifyHybrid.resolve_market_manual PredictifyHybrid.require_admin
    MarketStateManager.remove_market PredictifyHybrid.get_market
  rw [h]
  refine ⟨?_, rfl, rfl, ?_⟩
  · dsimp only
    rw [if_neg (show ¬ admin ≠ admin by simp)]
  · intro caller hne
    dsimp only
    rw [if_pos hne]

/-- Claim C10, witness: with stored admin 7, the admin's call removes
the stored market, and a call by address 8 aborts `Unauthorized`. -/
theorem resolve_market_manual_removes_witness :
    PredictifyHybrid.resolve_market_manual
        { admin := some 7,
          market := some (Market.new 7 "q" ["yes", "no"] 100
            { provider := .Reflector, feed_id := "BTC/USD", threshold := 1,
              comparison := "gt" } .Active) } 7 "yes" =
      .ok { admin := some 7, market := none } ∧
    PredictifyHybrid.resolve_market_manual
        { admin := some 7,
          market := some (Market.new 7 "q" ["yes", "no"] 100
            { provider := .Reflector, feed_id := "BTC/USD", threshold := 1,
              comparison := "gt" } .Active) } 8 "yes" =
      .err .Unauthorized :=
  ⟨(resolve_market_manual_removes _ 7 "yes" "no" rfl).1,
   (resolve_market_manual_removes _ 7 "yes" "no" rfl).2.2.2 8 (by decide)⟩

end Predictify
